import Mathlib

/-!
Verification of the FlexLiving review-aggregation core (`app.py`, `google_reviews.py`).

The Python code is shallowly embedded: JSON-like Python values are the inductive
type `PyVal`; Python dicts are ordered association lists (insertion order, unique
keys as produced by JSON parsing); the per-session approval store
`session['approved_reviews']` is passed as an explicit parameter; every upstream
HTTP interaction is an explicit environment value (`HttpOutcome`), so that each
adapter is a pure function of its environment.

Modelling conventions, noted once here:
* A Python operation that would raise `TypeError`/`KeyError`/`AttributeError` on
  ill-typed input (e.g. `.get` on a non-dict, indexing a missing key, comparing a
  non-number) is modelled by a harmless default ("junk") value; all claims are
  about well-typed inputs, where the model and the code agree.
* Python `round` (banker's rounding, half to even) is modelled exactly on `Rat`;
  binary floating-point artifacts of CPython floats are not modelled.
* `datetime.fromisoformat` is modelled by a concrete parser for the grammar
  `YYYY-MM-DD[<sep>HH[:MM[:SS[.fff|.ffffff]]][±HH:MM]]` with calendar-validity
  checks, as accepted by CPython ≤ 3.10; only parse success/failure matters to
  any property proved below.
* `datetime.fromtimestamp(..).strftime(..)` depends on the host's local time
  zone, so it is an input of the places-provider environment.
-/

namespace FlexLiving

/-- A JSON-like Python runtime value.  Dicts are insertion-ordered association
lists with unique keys (as produced by `json` parsing); `dt` is a
`datetime.datetime` object (year, month, day, hour, minute, second, microsecond,
optional UTC offset in minutes). -/
inductive PyVal where
  | none
  | bool (b : Bool)
  | int (n : Int)
  | float (q : Rat)
  | str (s : String)
  | dt (year month day hour minute second usec : Nat) (tz : Option Int)
  | list (xs : List PyVal)
  | dict (entries : List (String × PyVal))

/-- Python truthiness (`bool(v)`): `None`, `False`, zero, empty string/list/dict
are falsy; `datetime` objects are always truthy. -/
def truthy : PyVal → Bool
  | .none => false
  | .bool b => b
  | .int n => n != 0
  | .float q => q != 0
  | .str s => s != ""
  | .dt .. => true
  | .list xs => !xs.isEmpty
  | .dict es => !es.isEmpty

/-- Python `str(v)` for the scalar values that occur as review ids.
`str()` of containers and datetimes is never applied to an id in the source and
is not modelled (junk value). -/
def pyStr : PyVal → String
  | .none => "None"
  | .bool b => if b then "True" else "False"
  | .int n => toString n
  | .str s => s
  | _ => "<object>"

/-- Numeric view of a Python value (`int`, `float`, `bool` are numbers; `bool`
is an `int` subclass in Python).  Junk `0` on non-numbers, where Python
arithmetic would raise. -/
def asRat : PyVal → Rat
  | .int n => (n : Rat)
  | .float q => q
  | .bool b => if b then 1 else 0
  | _ => 0

def isNum : PyVal → Bool
  | .int _ => true
  | .float _ => true
  | .bool _ => true
  | _ => false

/-- Python `==` on the scalar values used here (`1 == 1.0 == True` holds in
Python; strings compare by value; `None == None`).  Containers are never
compared in the modelled code paths (junk `false`). -/
def pyEq (a b : PyVal) : Bool :=
  if isNum a && isNum b then asRat a == asRat b
  else match a, b with
    | .str x, .str y => x == y
    | .none, .none => true
    | _, _ => false

/-- View a value as a list (`junk []` where Python iteration would raise). -/
def asList : PyVal → List PyVal
  | .list xs => xs
  | _ => []

/-- View a value as a dict's entries (`junk []` where `.get` would raise). -/
def asDict : PyVal → List (String × PyVal)
  | .dict es => es
  | _ => []

/-- View a value as a string (junk `""` where a string method would raise). -/
def asStr : PyVal → String
  | .str s => s
  | _ => ""

/-- `d.get(k, dflt)` on a dict's entry list. -/
def dictGet (d : List (String × PyVal)) (k : String) (dflt : PyVal) : PyVal :=
  match d with
  | [] => dflt
  | (k', v) :: rest => if k' == k then v else dictGet rest k dflt

/-- `k in d`. -/
def dictHasKey (d : List (String × PyVal)) (k : String) : Bool :=
  match d with
  | [] => false
  | (k', _) :: rest => k' == k || dictHasKey rest k

/-- `d.get(k)` as an `Option` (used only in specifications). -/
def dictFind (d : List (String × PyVal)) (k : String) : Option PyVal :=
  match d with
  | [] => Option.none
  | (k', v) :: rest => if k' == k then some v else dictFind rest k

/-- `d[k] = v`: replace in place when the key exists (Python dicts keep the
original position), append otherwise. -/
def dictSet (d : List (String × PyVal)) (k : String) (v : PyVal) :
    List (String × PyVal) :=
  match d with
  | [] => [(k, v)]
  | (k', v') :: rest =>
    if k' == k then (k', v) :: rest else (k', v') :: dictSet rest k v

/-- `r[k]` on a review record (`junk PyVal.none` on a missing key, where Python
would raise `KeyError`; every record reaching the statistics code has the keys
that are indexed). -/
def pyIndex (r : PyVal) (k : String) : PyVal :=
  dictGet (asDict r) k PyVal.none

/-- Python's `round(q)`: round half to even, returning an `int`. -/
def roundHalfEven (q : Rat) : Int :=
  let f : Int := q.floor
  let r : Rat := q - (f : Rat)
  if r < 1/2 then f
  else if 1/2 < r then f + 1
  else if f % 2 = 0 then f else f + 1

/-- Python's `round(q, 1)` on exact rationals. -/
def round1 (q : Rat) : Rat := ((roundHalfEven (q * 10) : Int) : Rat) / 10

/-- Distinct elements under `pyEq`, keeping first occurrences: the model of
`len(set(..))` (Python `set` deduplicates by `==`). -/
def dedupPy : List PyVal → List PyVal
  | [] => []
  | x :: xs => x :: dedupPy (xs.filter (fun y => !(pyEq x y)))
termination_by l => l.length
decreasing_by
  simp only [List.length_cons]
  exact Nat.lt_succ_of_le (List.length_filter_le _ _)

/-- Two decimal digit characters to their value, `none` if not digits. -/
def twoDigits (a b : Char) : Option Nat :=
  if a.isDigit && b.isDigit then
    some ((a.toNat - 48) * 10 + (b.toNat - 48))
  else Option.none

def digitsVal (cs : List Char) : Nat :=
  cs.foldl (fun a c => a * 10 + (c.toNat - 48)) 0

def isLeap (y : Nat) : Bool :=
  (y % 4 == 0 && y % 100 != 0) || (y % 400 == 0)

def daysInMonth (y m : Nat) : Nat :=
  if m == 2 then (if isLeap y then 29 else 28)
  else if m == 4 || m == 6 || m == 9 || m == 11 then 30
  else 31

/-- Time-of-day part `HH[:MM[:SS[.fff|.ffffff]]]` of an ISO string, as accepted
by CPython ≤ 3.10 `fromisoformat`.  Returns (hour, minute, second, usec). -/
def parseTimePart (cs : List Char) : Option (Nat × Nat × Nat × Nat) :=
  match cs with
  | [a, b] =>
    (twoDigits a b).bind fun h =>
      if h < 24 then some (h, 0, 0, 0) else Option.none
  | [a, b, ':', c, d] =>
    (twoDigits a b).bind fun h => (twoDigits c d).bind fun m =>
      if h < 24 && m < 60 then some (h, m, 0, 0) else Option.none
  | [a, b, ':', c, d, ':', e, f] =>
    (twoDigits a b).bind fun h => (twoDigits c d).bind fun m =>
      (twoDigits e f).bind fun s =>
        if h < 24 && m < 60 && s < 60 then some (h, m, s, 0) else Option.none
  | [a, b, ':', c, d, ':', e, f, '.', u1, u2, u3] =>
    (twoDigits a b).bind fun h => (twoDigits c d).bind fun m =>
      (twoDigits e f).bind fun s =>
        if h < 24 && m < 60 && s < 60 && [u1, u2, u3].all Char.isDigit then
          some (h, m, s, digitsVal [u1, u2, u3] * 1000)
        else Option.none
  | [a, b, ':', c, d, ':', e, f, '.', u1, u2, u3, u4, u5, u6] =>
    (twoDigits a b).bind fun h => (twoDigits c d).bind fun m =>
      (twoDigits e f).bind fun s =>
        if h < 24 && m < 60 && s < 60 && [u1, u2, u3, u4, u5, u6].all Char.isDigit then
          some (h, m, s, digitsVal [u1, u2, u3, u4, u5, u6])
        else Option.none
  | _ => Option.none

/-- Split a trailing `±HH:MM` UTC-offset (CPython ≤ 3.10 looks for `+`/`-` six
characters from the end of the time string). -/
def splitTz (cs : List Char) : List Char × Option (List Char) :=
  if cs.length ≥ 6 then
    let front := cs.take (cs.length - 6)
    let back := cs.drop (cs.length - 6)
    match back with
    | c :: _ => if c == '+' || c == '-' then (front, some back) else (cs, Option.none)
    | [] => (cs, Option.none)
  else (cs, Option.none)

/-- Parse a `±HH:MM` offset to minutes. -/
def parseOffset (cs : List Char) : Option Int :=
  match cs with
  | [sg, a, b, ':', c, d] =>
    (twoDigits a b).bind fun h => (twoDigits c d).bind fun m =>
      if h < 24 && m < 60 then
        let v : Int := (h * 60 + m : Nat)
        if sg == '+' then some v
        else if sg == '-' then some (-v)
        else Option.none
      else Option.none
  | _ => Option.none

/-- `datetime.fromisoformat`, modelled for the CPython ≤ 3.10 grammar
`YYYY-MM-DD[<any sep>HH[:MM[:SS[.fff|.ffffff]]][±HH:MM]]` with calendar
validation (year ≥ 1, month 1–12, day within the month).  `Option.none` models
the `ValueError` that the caller catches. -/
def fromisoformat (s : String) : Option PyVal :=
  match s.toList with
  | y1 :: y2 :: y3 :: y4 :: '-' :: m1 :: m2 :: '-' :: d1 :: d2 :: rest =>
    if [y1, y2, y3, y4, m1, m2, d1, d2].all Char.isDigit then
      let y := digitsVal [y1, y2, y3, y4]
      let mo := digitsVal [m1, m2]
      let dy := digitsVal [d1, d2]
      if 1 ≤ y && 1 ≤ mo && mo ≤ 12 && 1 ≤ dy && dy ≤ daysInMonth y mo then
        match rest with
        | [] => some (PyVal.dt y mo dy 0 0 0 0 Option.none)
        | _sep :: timecs =>
          let (hms, tzcs) := splitTz timecs
          (parseTimePart hms).bind fun t =>
            match tzcs with
            | Option.none =>
              some (PyVal.dt y mo dy t.1 t.2.1 t.2.2.1 t.2.2.2 Option.none)
            | some tcs =>
              (parseOffset tcs).bind fun off =>
                some (PyVal.dt y mo dy t.1 t.2.1 t.2.2.1 t.2.2.2 (some off))
      else Option.none
    else Option.none
  | _ => Option.none

/-- The session approval store `session['approved_reviews']`: a dict keyed by
string review ids (the approve endpoint stores `str(review_id)` keys); an
absent session key behaves as the empty dict. -/
abbrev ApprovalMap := List (String × PyVal)

/-! ### `normalize_review` (app.py 119–195)

The local variables of the Python function are factored into named definitions
so the theorems below can speak about them. -/

/-- `review_categories = review.get('reviewCategory', [])` (app.py 136). -/
def reviewCategories (review : PyVal) : List PyVal :=
  asList (dictGet (asDict review) "reviewCategory" (PyVal.list []))

/-- `overall_rating` after the conditional computation (app.py 137–142):
`round(sum(cat.get('rating', 0) ...) / len(review_categories))` when the
category list is non-empty, else the initial `0`. -/
def overallRating (review : PyVal) : Int :=
  let cats := reviewCategories review
  if !cats.isEmpty then
    roundHalfEven
      ((cats.map (fun cat => asRat (dictGet (asDict cat) "rating" (PyVal.int 0)))).sum
        / (cats.length : Rat))
  else 0

/-- The `(category_name, rating)` pairs of the loop body (app.py 152–163):
name lower-cased, rating as stored. -/
def catPairs (review : PyVal) : List (String × PyVal) :=
  (reviewCategories review).map fun cat =>
    ((asStr (dictGet (asDict cat) "category" (PyVal.str ""))).toLower,
      dictGet (asDict cat) "rating" (PyVal.int 0))

/-- `category_ratings_display` (app.py 157–160). -/
def categoryRatingsDisplay (review : PyVal) : List PyVal :=
  (catPairs review).map fun p =>
    PyVal.dict [("category", PyVal.str p.1), ("rating", p.2)]

/-- `review_category` (app.py 149, 163): dict built by successive assignment. -/
def reviewCategoryDict (review : PyVal) : List (String × PyVal) :=
  (catPairs review).foldl (fun d p => dictSet d p.1 p.2) []

/-- `review_date` (app.py 165–172): parse `submittedAt` with `Z` replaced by
`+00:00`; the bare `except` maps any failure (including a non-string value) to
`None`. -/
def reviewDate (review : PyVal) : PyVal :=
  let sa := dictGet (asDict review) "submittedAt" PyVal.none
  if truthy sa then
    match sa with
    | PyVal.str s => (fromisoformat (s.replace "Z" "+00:00")).getD PyVal.none
    | _ => PyVal.none
  else PyVal.none

/-- `normalize_review(review, source)` (app.py 119–195), with the session
approval dict as an explicit parameter. -/
def normalize_review (review : PyVal) (source : String) (approval : ApprovalMap) :
    PyVal :=
  if source = "google" then
    let review_id := pyStr (dictGet (asDict review) "id" PyVal.none)
    let is_approved := dictGet approval review_id (PyVal.bool false)
    PyVal.dict (dictSet (asDict review) "approved" is_approved)
  else if source = "Hostaway" ∨ source = "Demo" then
    let review_id := pyStr (dictGet (asDict review) "id" PyVal.none)
    let is_approved := dictGet approval review_id (PyVal.bool false)
    PyVal.dict [
      ("id", PyVal.str review_id),
      ("listing_id", dictGet (asDict review) "listingId" (PyVal.str "unknown")),
      ("listing_name", dictGet (asDict review) "listingName" (PyVal.str "Unknown Property")),
      ("guest_name", dictGet (asDict review) "guestName" (PyVal.str "Anonymous")),
      ("guest_location", dictGet (asDict review) "guestLocation" (PyVal.str "")),
      ("review_text", dictGet (asDict review) "publicReview" (PyVal.str "")),
      ("overall_rating",
        PyVal.int (if overallRating review ≠ 0 then overallRating review else 5)),
      ("category_ratings", PyVal.list (categoryRatingsDisplay review)),
      ("review_category", PyVal.dict (reviewCategoryDict review)),
      ("review_date", reviewDate review),
      ("date", dictGet (asDict review) "submittedAt" (PyVal.str "")),
      ("channel", PyVal.str source),
      ("approved", is_approved)
    ]
  else review

/-! ### Source adapters -/

/-- Outcome of one upstream HTTP request: `raises` covers connection failures,
timeouts, `raise_for_status` on a 4xx/5xx response (for the places provider)
and JSON-decoding errors; `response status body` is a completed request whose
body parsed to `body`. -/
inductive HttpOutcome where
  | raises
  | response (status : Int) (body : PyVal)

/-- Python string truthiness of an environment variable / argument that may be
unset (`None`) or empty. -/
def optTruthy : Option String → Bool
  | some s => s ≠ ""
  | Option.none => false

/-- `a or b` on optional strings (Python `or` picks `a` when truthy). -/
def pyOrStr (a b : Option String) : Option String :=
  match a with
  | some s => if s ≠ "" then some s else b
  | Option.none => b

/-- Environment of `fetch_google_reviews` (google_reviews.py 10–78). -/
structure GoogleEnv where
  /-- the `place_id` argument (defaulted at the call site) -/
  place_id : String
  /-- the `api_key` argument (`None` when omitted) -/
  api_key : Option String
  /-- `os.getenv('GOOGLE_PLACES_API_KEY')` -/
  env_api_key : Option String
  /-- outcome of the place-details GET -/
  details : HttpOutcome
  /-- `datetime.fromtimestamp(t).strftime('%Y-%m-%d %H:%M:%S')`: local-time
  formatting, time-zone dependent, hence an environment input -/
  fmtTime : Rat → String

/-- One entry of the `normalized_reviews` loop (google_reviews.py 53–67);
`i` is the 0-based `enumerate` index. -/
def googleNormalizeOne (place_id : String) (place_details : List (String × PyVal))
    (fmtTime : Rat → String) (i : Nat) (review : PyVal) : PyVal :=
  PyVal.dict [
    ("id", PyVal.str ("google_" ++ Nat.repr (i + 1))),
    ("listing_id", PyVal.str place_id),
    ("listing_name", dictGet place_details "name" (PyVal.str "Google Property")),
    ("guest_name", dictGet (asDict review) "author_name" (PyVal.str "Anonymous")),
    ("review_text", dictGet (asDict review) "text" (PyVal.str "")),
    ("overall_rating", dictGet (asDict review) "rating" (PyVal.int 5)),
    ("category_ratings", PyVal.list []),
    ("date", PyVal.str (fmtTime (asRat (dictGet (asDict review) "time" (PyVal.int 0))))),
    ("channel", PyVal.str "Google"),
    ("guest_location", PyVal.str ""),
    ("approved", PyVal.bool false)
  ]

/-- `fetch_google_reviews` (google_reviews.py 10–78).  Every failure path goes
through `fetch_google_reviews_fallback`, which returns `[]`
(google_reviews.py 80–88).  `response.raise_for_status()` raises (an outcome
the caller catches) exactly for 4xx/5xx status codes. -/
def fetch_google_reviews (env : GoogleEnv) : List PyVal :=
  let google_api_key := pyOrStr env.api_key env.env_api_key
  if !(optTruthy google_api_key) then []
  else
    match env.details with
    | .raises => []
    | .response status body =>
      if 400 ≤ status ∧ status < 600 then []
      else if !(pyEq (dictGet (asDict body) "status" PyVal.none) (PyVal.str "OK")) then []
      else
        let place_details := asDict (dictGet (asDict body) "result" (PyVal.dict []))
        let reviews := asList (dictGet place_details "reviews" (PyVal.list []))
        reviews.enum.map fun p =>
          googleNormalizeOne env.place_id place_details env.fmtTime p.1 p.2

/-- Environment of the Hostaway adapter (app.py 36–117). -/
structure HostawayEnv where
  /-- `HOSTAWAY_ACCOUNT_ID` (`None` when unset) -/
  account_id : Option String
  /-- `HOSTAWAY_API_KEY` -/
  api_key : Option String
  /-- outcome of `POST /accessTokens` -/
  token : HttpOutcome
  /-- outcome of `GET /reviews` -/
  reviews : HttpOutcome

/-- `get_hostaway_access_token` (app.py 36–67): `None` on missing credentials,
request failure, non-200 status, or a missing/falsy `access_token` field. -/
def get_hostaway_access_token (env : HostawayEnv) : Option PyVal :=
  if !(optTruthy env.api_key) || !(optTruthy env.account_id) then Option.none
  else
    match env.token with
    | .raises => Option.none
    | .response status body =>
      if status = 200 then
        let access_token := dictGet (asDict body) "access_token" PyVal.none
        if truthy access_token then some access_token else Option.none
      else Option.none

/-- `fetch_hostaway_reviews` (app.py 69–117): `[]` on missing credentials,
failed auth, request failure, non-200, API non-`success` status, or a
non-positive `count`. -/
def fetch_hostaway_reviews (env : HostawayEnv) : List PyVal :=
  if !(optTruthy env.api_key) || !(optTruthy env.account_id) then []
  else
    match get_hostaway_access_token env with
    | Option.none => []
    | some access_token =>
      if !(truthy access_token) then []
      else
        match env.reviews with
        | .raises => []
        | .response status body =>
          if status = 200 then
            if pyEq (dictGet (asDict body) "status" PyVal.none) (PyVal.str "success") then
              let reviews := asList (dictGet (asDict body) "result" (PyVal.list []))
              let count := asRat (dictGet (asDict body) "count" (PyVal.int 0))
              if 0 < count then reviews else []
            else []
          else []

/-! ### Aggregator (app.py 197–228) -/

/-- Environment of one `get_all_reviews` call. -/
structure AggEnv where
  hostaway : HostawayEnv
  /-- parsed contents of `mock_data/reviews.json` (a JSON array of raw
  reviews); `none` models a missing file or invalid JSON -/
  mock_data : Option (List PyVal)
  /-- whether `from google_reviews import fetch_google_reviews` succeeds
  (failure is caught by the surrounding `except`) -/
  google_import_ok : Bool
  google : GoogleEnv
  /-- `session['approved_reviews']` -/
  approval : ApprovalMap

/-- `load_mock_reviews` (app.py 24–34): `[]` on load failure. -/
def load_mock_reviews (m : Option (List PyVal)) : List PyVal := m.getD []

/-- The Hostaway-or-demo portion of `all_reviews` (app.py 201–213). -/
def primary_demo_part (env : AggEnv) : List PyVal :=
  let hostaway_reviews := fetch_hostaway_reviews env.hostaway
  if !hostaway_reviews.isEmpty then
    hostaway_reviews.map fun r => normalize_review r "Hostaway" env.approval
  else
    let mock_reviews := load_mock_reviews env.mock_data
    if !mock_reviews.isEmpty then
      mock_reviews.map fun r => normalize_review r "Demo" env.approval
    else []

/-- The Google portion of `all_reviews` (app.py 215–225); an import failure is
caught and contributes nothing. -/
def google_part (env : AggEnv) : List PyVal :=
  if env.google_import_ok then
    let google_reviews := fetch_google_reviews env.google
    if !google_reviews.isEmpty then
      google_reviews.map fun r => normalize_review r "google" env.approval
    else []
  else []

/-- `get_all_reviews` (app.py 197–228): `all_reviews` is extended by the
primary/demo block, then by the Google block. -/
def get_all_reviews (env : AggEnv) : List PyVal :=
  primary_demo_part env ++ google_part env

/-! ### Statistics of the public display route (app.py 245–256) -/

/-- `approved_reviews = [r for r in all_reviews if r['approved']]` (app.py 245). -/
def approved_reviews (reviews : List PyVal) : List PyVal :=
  reviews.filter fun r => truthy (pyIndex r "approved")

/-- `total_reviews` (app.py 249). -/
def total_reviews (reviews : List PyVal) : Nat :=
  (approved_reviews reviews).length

/-- `total_properties = len(set(r['listing_id'] ...)) if approved_reviews else 0`
(app.py 250). -/
def total_properties (reviews : List PyVal) : Nat :=
  if !(approved_reviews reviews).isEmpty then
    (dedupPy ((approved_reviews reviews).map fun r => pyIndex r "listing_id")).length
  else 0

/-- `average_rating` (app.py 253–256): `0`, or the 1-decimal-rounded mean of
`overall_rating` over the approved subset. -/
def average_rating (reviews : List PyVal) : Rat :=
  if !(approved_reviews reviews).isEmpty then
    round1
      (((approved_reviews reviews).map fun r => asRat (pyIndex r "overall_rating")).sum
        / ((approved_reviews reviews).length : Rat))
  else 0

/-! ### Dictionary lemmas -/

/-! ### Dictionary lemmas -/

theorem dictGet_dictSet_self (d : List (String × PyVal)) (k : String) (v dflt : PyVal) :
    dictGet (dictSet d k v) k dflt = v := by
  induction d with
  | nil => simp [dictSet, dictGet]
  | cons hd tl ih =>
    obtain ⟨k', v'⟩ := hd
    by_cases h : k' = k
    · subst h; simp [dictSet, dictGet]
    · simp [dictSet, dictGet, h, ih]

theorem dictFind_dictSet (d : List (String × PyVal)) (k : String) (v : PyVal) (n : String) :
    dictFind (dictSet d k v) n = if n = k then some v else dictFind d n := by
  induction d with
  | nil =>
    by_cases h : n = k
    · subst h; simp [dictSet, dictFind]
    · simp [dictSet, dictFind, h, Ne.symm h]
  | cons hd tl ih =>
    obtain ⟨k', v'⟩ := hd
    by_cases h : k' = k
    · subst h
      by_cases h' : n = k'
      · subst h'; simp [dictSet, dictFind]
      · simp [dictSet, dictFind, h', Ne.symm h']
    · by_cases h' : k' = n
      · subst h'
        simp [dictSet, dictFind, h, fun hh : k' = k => h hh]
      · simp [dictSet, dictFind, h, h', ih]

theorem dictHasKey_dictSet (d : List (String × PyVal)) (k : String) (v : PyVal) (n : String) :
    dictHasKey (dictSet d k v) n = (dictHasKey d n || n == k) := by
  induction d with
  | nil =>
    by_cases h : n = k
    · subst h; simp [dictSet, dictHasKey]
    · simp [dictSet, dictHasKey, h, Ne.symm h]
  | cons hd tl ih =>
    obtain ⟨k', v'⟩ := hd
    by_cases h : k' = k
    · subst h
      by_cases h' : n = k'
      · subst h'; simp [dictSet, dictHasKey]
      · simp [dictSet, dictHasKey, h', Ne.symm h']
    · simp [dictSet, dictHasKey, h, ih, Bool.or_assoc]

theorem dictGet_of_hasKey_false (d : List (String × PyVal)) (k : String) (dflt : PyVal)
    (h : dictHasKey d k = false) : dictGet d k dflt = dflt := by
  induction d with
  | nil => rfl
  | cons hd tl ih =>
    obtain ⟨k', v'⟩ := hd
    simp only [dictHasKey, Bool.or_eq_false_iff] at h
    simp [dictGet, h.1, ih h.2]

/-- Keys present after folding successive dict assignments. -/
theorem foldSet_hasKey (ps : List (String × PyVal)) (d : List (String × PyVal)) (n : String) :
    dictHasKey (ps.foldl (fun d p => dictSet d p.1 p.2) d) n
      = (dictHasKey d n || ps.any (fun p => p.1 == n)) := by
  induction ps generalizing d with
  | nil => simp
  | cons p ps ih =>
    simp only [List.foldl_cons, List.any_cons, ih, dictHasKey_dictSet]
    by_cases hp : p.1 = n
    · simp [hp]
    · have h1 : (n == p.1) = false := by simp [Ne.symm hp]
      have h2 : (p.1 == n) = false := by simp [hp]
      simp [h1, h2, Bool.or_assoc]

/-- A value found after folding successive dict assignments came from one of
the assigned pairs (or from the initial dict). -/
theorem foldSet_find_mem (ps : List (String × PyVal)) (d : List (String × PyVal))
    (n : String) (v : PyVal)
    (h : dictFind (ps.foldl (fun d p => dictSet d p.1 p.2) d) n = some v) :
    (n, v) ∈ ps ∨ dictFind d n = some v := by
  induction ps generalizing d with
  | nil => exact Or.inr h
  | cons p ps ih =>
    simp only [List.foldl_cons] at h
    rcases ih _ h with h' | h'
    · exact Or.inl (List.mem_cons_of_mem _ h')
    · rw [dictFind_dictSet] at h'
      by_cases hk : n = p.1
      · rw [if_pos hk] at h'
        obtain rfl : p.2 = v := by simpa using h'
        subst hk
        exact Or.inl (by simp)
      · rw [if_neg hk] at h'
        exact Or.inr h'

/-! ### Deduplication lemmas (model of `len(set(..))`) -/

theorem dedupPy_subset : ∀ (l : List PyVal), dedupPy l ⊆ l := by
  intro l
  induction l using dedupPy.induct with
  | case1 => simp [dedupPy]
  | case2 x xs ih =>
    rw [dedupPy]
    intro a ha
    rcases List.mem_cons.mp ha with rfl | ha
    · exact List.mem_cons_self _ _
    · exact List.mem_cons_of_mem _ (List.mem_filter.mp (ih ha)).1

theorem dedupPy_pairwise : ∀ (l : List PyVal),
    (dedupPy l).Pairwise (fun a b => pyEq a b = false) := by
  intro l
  induction l using dedupPy.induct with
  | case1 => simp [dedupPy]
  | case2 x xs ih =>
    rw [dedupPy]
    refine List.Pairwise.cons ?_ ih
    intro y hy
    have hmem : y ∈ xs.filter (fun y => !(pyEq x y)) := dedupPy_subset _ hy
    simpa using (List.mem_filter.mp hmem).2

theorem dedupPy_rep : ∀ (l : List PyVal) (v : PyVal), v ∈ l → pyEq v v = true →
    ∃ w ∈ dedupPy l, pyEq w v = true := by
  intro l
  induction l using dedupPy.induct with
  | case1 => intro v hv; simp at hv
  | case2 x xs ih =>
    intro v hv hrefl
    rw [dedupPy]
    by_cases hx : pyEq x v = true
    · exact ⟨x, List.mem_cons_self _ _, hx⟩
    · rcases List.mem_cons.mp hv with rfl | hv
      · exact absurd hrefl hx
      · have hvf : v ∈ xs.filter (fun y => !(pyEq x y)) :=
          List.mem_filter.mpr ⟨hv, by simp [hx]⟩
        obtain ⟨w, hw, hweq⟩ := ih v hvf hrefl
        exact ⟨w, List.mem_cons_of_mem _ hw, hweq⟩
/-! ### Shared facts about `normalize_review` -/

/-- The `approved` field written by the `google` branch is exactly the approval
map's entry for the string-cast id, defaulting to `False` (app.py 121–132). -/
theorem normalize_google_approved (review : PyVal) (m : ApprovalMap) :
    pyIndex (normalize_review review "google" m) "approved"
      = dictGet m (pyStr (dictGet (asDict review) "id" PyVal.none)) (PyVal.bool false) := by
  show pyIndex (PyVal.dict (dictSet (asDict review) "approved" _)) "approved" = _
  simp [pyIndex, asDict, dictGet_dictSet_self]

/-- The `approved` field written by the `Hostaway`/`Demo` branch is exactly the
approval map's entry for the string-cast id, defaulting to `False`
(app.py 174–177, 192). -/
theorem normalize_hostaway_approved (review : PyVal) (m : ApprovalMap) (src : String)
    (hsrc : src = "Hostaway" ∨ src = "Demo") :
    pyIndex (normalize_review review src m) "approved"
      = dictGet m (pyStr (dictGet (asDict review) "id" PyVal.none)) (PyVal.bool false) := by
  rcases hsrc with rfl | rfl <;> rfl

/-! ### C4 — approval merge is a pure function of (id, approval map) -/

/-- **C4.** In every normalization branch that performs the approval merge
(`google`, `Hostaway`, `Demo`), the merged review's `approved` field equals
`approval.get(str(review.get('id')), False)`: a pure function of the review id
and the approval map, `False` whenever the map has no entry for the id. -/
theorem C4_approval_merge_pure (review : PyVal) (m : ApprovalMap) :
    pyIndex (normalize_review review "google" m) "approved"
        = dictGet m (pyStr (dictGet (asDict review) "id" PyVal.none)) (PyVal.bool false)
      ∧ pyIndex (normalize_review review "Hostaway" m) "approved"
        = dictGet m (pyStr (dictGet (asDict review) "id" PyVal.none)) (PyVal.bool false)
      ∧ pyIndex (normalize_review review "Demo" m) "approved"
        = dictGet m (pyStr (dictGet (asDict review) "id" PyVal.none)) (PyVal.bool false) :=
  ⟨normalize_google_approved review m,
   normalize_hostaway_approved review m "Hostaway" (Or.inl rfl),
   normalize_hostaway_approved review m "Demo" (Or.inr rfl)⟩

/-! ### C10 — unknown sources pass through unchanged -/

/-- **C10.** For every source tag other than `google`, `Hostaway` and `Demo`,
`normalize_review` is the identity: no normalization, defaulting or
approval-map lookup is applied (app.py 195). -/
theorem C10_unknown_source_identity (review : PyVal) (source : String) (m : ApprovalMap)
    (h1 : source ≠ "google") (h2 : source ≠ "Hostaway") (h3 : source ≠ "Demo") :
    normalize_review review source m = review := by
  simp [normalize_review, h1, h2, h3]

theorem C10_unknown_source_identity_witness :
    normalize_review (PyVal.int 3) "Airbnb" [] = PyVal.int 3 :=
  C10_unknown_source_identity (PyVal.int 3) "Airbnb" []
    (by decide) (by decide) (by decide)

/-! ### C2 — overall rating from category ratings -/

/-- **C2 (amended).** For the `Hostaway` and `Demo` branches, `overall_rating`
is the half-to-even-rounded arithmetic mean of the category ratings whenever
`reviewCategory` is non-empty **and that rounded mean is non-zero**; it is `5`
when `reviewCategory` is empty/absent **or the rounded mean equals 0** (the
code treats a `0` rating as falsy and substitutes the default, app.py 186). -/
theorem C2_overall_rating (review : PyVal) (m : ApprovalMap) :
    pyIndex (normalize_review review "Hostaway" m) "overall_rating"
        = PyVal.int
          (if (reviewCategories review).isEmpty then 5
           else if roundHalfEven
               (((reviewCategories review).map
                   (fun cat => asRat (dictGet (asDict cat) "rating" (PyVal.int 0)))).sum
                 / ((reviewCategories review).length : Rat)) = 0 then 5
           else roundHalfEven
               (((reviewCategories review).map
                   (fun cat => asRat (dictGet (asDict cat) "rating" (PyVal.int 0)))).sum
                 / ((reviewCategories review).length : Rat)))
      ∧ pyIndex (normalize_review review "Demo" m) "overall_rating"
        = pyIndex (normalize_review review "Hostaway" m) "overall_rating" := by
  constructor
  · show PyVal.int (if overallRating review ≠ 0 then overallRating review else 5) = _
    by_cases hemp : (reviewCategories review).isEmpty
    · simp [hemp, overallRating]
    · simp only [overallRating, hemp, Bool.not_false, if_true, if_pos, hemp, Bool.false_eq_true,
        if_false]
      by_cases hz : roundHalfEven
          (((reviewCategories review).map
              (fun cat => asRat (dictGet (asDict cat) "rating" (PyVal.int 0)))).sum
            / ((reviewCategories review).length : Rat)) = 0
      · simp [hemp, hz]
      · simp [hemp, hz]
  · rfl

/-- A concrete record on which the original C2 fails: one category with rating
`0`; the rounded mean is `0`, but the code yields `5`. -/
def c2raw : PyVal := PyVal.dict [
  ("id", PyVal.int 2),
  ("reviewCategory", PyVal.list [
    PyVal.dict [("category", PyVal.str "x"), ("rating", PyVal.int 0)]])]

/-- **C2 (counterexample).** `c2raw` has a non-empty `reviewCategory` whose
rounded mean rating is `0`, yet the normalized `overall_rating` is `5`, not the
rounded mean. -/
theorem C2_overall_rating_counterexample :
    (reviewCategories c2raw).isEmpty = false
      ∧ roundHalfEven
          (((reviewCategories c2raw).map
              (fun cat => asRat (dictGet (asDict cat) "rating" (PyVal.int 0)))).sum
            / ((reviewCategories c2raw).length : Rat)) = 0
      ∧ pyIndex (normalize_review c2raw "Hostaway" []) "overall_rating" = PyVal.int 5
      ∧ pyIndex (normalize_review c2raw "Hostaway" []) "overall_rating"
          ≠ PyVal.int (roundHalfEven
            (((reviewCategories c2raw).map
                (fun cat => asRat (dictGet (asDict cat) "rating" (PyVal.int 0)))).sum
              / ((reviewCategories c2raw).length : Rat))) := by
  refine ⟨by with_unfolding_all rfl, by with_unfolding_all rfl, by with_unfolding_all rfl, ?_⟩
  rw [show roundHalfEven
      (((reviewCategories c2raw).map
          (fun cat => asRat (dictGet (asDict cat) "rating" (PyVal.int 0)))).sum
        / ((reviewCategories c2raw).length : Rat)) = 0 from by with_unfolding_all rfl,
    show pyIndex (normalize_review c2raw "Hostaway" []) "overall_rating" = PyVal.int 5 from by
      with_unfolding_all rfl]
  intro h
  exact absurd (PyVal.int.inj h) (by norm_num)

/-! ### C9 — normalization is total with documented defaults -/

/-- **C9.** Normalization of a primary-platform/demo record is total: the raw
`submittedAt` string is retained verbatim in `date`; when `submittedAt` is
present but unparsable, `review_date` is `None` while the record (with its full
key set) is still returned; and every absent field gets its documented default
(app.py 119–195). -/
theorem C9_normalization_total (review : PyVal) (m : ApprovalMap) (src : String)
    (hsrc : src = "Hostaway" ∨ src = "Demo") :
    pyIndex (normalize_review review src m) "date"
        = dictGet (asDict review) "submittedAt" (PyVal.str "")
      ∧ (∀ s, dictGet (asDict review) "submittedAt" PyVal.none = PyVal.str s →
          fromisoformat (s.replace "Z" "+00:00") = Option.none →
          pyIndex (normalize_review review src m) "review_date" = PyVal.none)
      ∧ (dictHasKey (asDict review) "listingId" = false →
          pyIndex (normalize_review review src m) "listing_id" = PyVal.str "unknown")
      ∧ (dictHasKey (asDict review) "listingName" = false →
          pyIndex (normalize_review review src m) "listing_name"
            = PyVal.str "Unknown Property")
      ∧ (dictHasKey (asDict review) "guestName" = false →
          pyIndex (normalize_review review src m) "guest_name" = PyVal.str "Anonymous")
      ∧ (dictHasKey (asDict review) "guestLocation" = false →
          pyIndex (normalize_review review src m) "guest_location" = PyVal.str "")
      ∧ (dictHasKey (asDict review) "publicReview" = false →
          pyIndex (normalize_review review src m) "review_text" = PyVal.str "")
      ∧ (dictHasKey (asDict review) "reviewCategory" = false →
          pyIndex (normalize_review review src m) "overall_rating" = PyVal.int 5
            ∧ pyIndex (normalize_review review src m) "category_ratings" = PyVal.list []
            ∧ pyIndex (normalize_review review src m) "review_category" = PyVal.dict [])
      ∧ (asDict (normalize_review review src m)).map Prod.fst
          = ["id", "listing_id", "listing_name", "guest_name", "guest_location",
             "review_text", "overall_rating", "category_ratings", "review_category",
             "review_date", "date", "channel", "approved"] := by
  have hcats : dictHasKey (asDict review) "reviewCategory" = false →
      reviewCategories review = [] := by
    intro h
    simp [reviewCategories, dictGet_of_hasKey_false _ _ _ h, asList]
  have hdate : pyIndex (normalize_review review src m) "date"
      = dictGet (asDict review) "submittedAt" (PyVal.str "") := by
    rcases hsrc with rfl | rfl <;> rfl
  have hrd : ∀ s, dictGet (asDict review) "submittedAt" PyVal.none = PyVal.str s →
      fromisoformat (s.replace "Z" "+00:00") = Option.none →
      pyIndex (normalize_review review src m) "review_date" = PyVal.none := by
    intro s hs hparse
    have hshow : pyIndex (normalize_review review src m) "review_date"
        = reviewDate review := by
      rcases hsrc with rfl | rfl <;> rfl
    rw [hshow, reviewDate, hs]
    by_cases hemp : s = ""
    · subst hemp; rfl
    · have ht : truthy (PyVal.str s) = true := by simpa [truthy] using hemp
      simp [ht, hparse]
  have hlid : dictHasKey (asDict review) "listingId" = false →
      pyIndex (normalize_review review src m) "listing_id" = PyVal.str "unknown" := by
    intro h
    have hshow : pyIndex (normalize_review review src m) "listing_id"
        = dictGet (asDict review) "listingId" (PyVal.str "unknown") := by
      rcases hsrc with rfl | rfl <;> rfl
    rw [hshow]; exact dictGet_of_hasKey_false _ _ _ h
  have hlnm : dictHasKey (asDict review) "listingName" = false →
      pyIndex (normalize_review review src m) "listing_name"
        = PyVal.str "Unknown Property" := by
    intro h
    have hshow : pyIndex (normalize_review review src m) "listing_name"
        = dictGet (asDict review) "listingName" (PyVal.str "Unknown Property") := by
      rcases hsrc with rfl | rfl <;> rfl
    rw [hshow]; exact dictGet_of_hasKey_false _ _ _ h
  have hgn : dictHasKey (asDict review) "guestName" = false →
      pyIndex (normalize_review review src m) "guest_name" = PyVal.str "Anonymous" := by
    intro h
    have hshow : pyIndex (normalize_review review src m) "guest_name"
        = dictGet (asDict review) "guestName" (PyVal.str "Anonymous") := by
      rcases hsrc with rfl | rfl <;> rfl
    rw [hshow]; exact dictGet_of_hasKey_false _ _ _ h
  have hgl : dictHasKey (asDict review) "guestLocation" = false →
      pyIndex (normalize_review review src m) "guest_location" = PyVal.str "" := by
    intro h
    have hshow : pyIndex (normalize_review review src m) "guest_location"
        = dictGet (asDict review) "guestLocation" (PyVal.str "") := by
      rcases hsrc with rfl | rfl <;> rfl
    rw [hshow]; exact dictGet_of_hasKey_false _ _ _ h
  have hrt : dictHasKey (asDict review) "publicReview" = false →
      pyIndex (normalize_review review src m) "review_text" = PyVal.str "" := by
    intro h
    have hshow : pyIndex (normalize_review review src m) "review_text"
        = dictGet (asDict review) "publicReview" (PyVal.str "") := by
      rcases hsrc with rfl | rfl <;> rfl
    rw [hshow]; exact dictGet_of_hasKey_false _ _ _ h
  have hnocat : dictHasKey (asDict review) "reviewCategory" = false →
      pyIndex (normalize_review review src m) "overall_rating" = PyVal.int 5
        ∧ pyIndex (normalize_review review src m) "category_ratings" = PyVal.list []
        ∧ pyIndex (normalize_review review src m) "review_category" = PyVal.dict [] := by
    intro h
    have hc := hcats h
    refine ⟨?_, ?_, ?_⟩
    · have hshow : pyIndex (normalize_review review src m) "overall_rating"
          = PyVal.int (if overallRating review ≠ 0 then overallRating review else 5) := by
        rcases hsrc with rfl | rfl <;> rfl
      rw [hshow]; simp [overallRating, hc]
    · have hshow : pyIndex (normalize_review review src m) "category_ratings"
          = PyVal.list (categoryRatingsDisplay review) := by
        rcases hsrc with rfl | rfl <;> rfl
      rw [hshow]; simp [categoryRatingsDisplay, catPairs, hc]
    · have hshow : pyIndex (normalize_review review src m) "review_category"
          = PyVal.dict (reviewCategoryDict review) := by
        rcases hsrc with rfl | rfl <;> rfl
      rw [hshow]; simp [reviewCategoryDict, catPairs, hc]
  have hkeys : (asDict (normalize_review review src m)).map Prod.fst
      = ["id", "listing_id", "listing_name", "guest_name", "guest_location",
         "review_text", "overall_rating", "category_ratings", "review_category",
         "review_date", "date", "channel", "approved"] := by
    rcases hsrc with rfl | rfl <;> rfl
  exact ⟨hdate, hrd, hlid, hlnm, hgn, hgl, hrt, hnocat, hkeys⟩

theorem C9_normalization_total_witness :
    pyIndex (normalize_review (PyVal.dict [("submittedAt", PyVal.str "not-a-date")])
        "Hostaway" []) "review_date" = PyVal.none
      ∧ pyIndex (normalize_review (PyVal.dict [("submittedAt", PyVal.str "not-a-date")])
          "Hostaway" []) "date" = PyVal.str "not-a-date"
      ∧ pyIndex (normalize_review (PyVal.dict [("submittedAt", PyVal.str "not-a-date")])
          "Hostaway" []) "listing_id" = PyVal.str "unknown"
      ∧ pyIndex (normalize_review (PyVal.dict [("submittedAt", PyVal.str "not-a-date")])
          "Hostaway" []) "guest_name" = PyVal.str "Anonymous"
      ∧ pyIndex (normalize_review (PyVal.dict [("submittedAt", PyVal.str "not-a-date")])
          "Hostaway" []) "overall_rating" = PyVal.int 5 := by
  obtain ⟨h1, h2, h3, h4, h5, h6, h7, h8, h9⟩ :=
    C9_normalization_total (PyVal.dict [("submittedAt", PyVal.str "not-a-date")]) []
      "Hostaway" (Or.inl rfl)
  refine ⟨h2 "not-a-date" (by with_unfolding_all rfl) (by with_unfolding_all rfl),
    ?_, h3 (by with_unfolding_all rfl), h5 (by with_unfolding_all rfl),
    (h8 (by with_unfolding_all rfl)).1⟩
  rw [h1]; with_unfolding_all rfl

/-! ### C3 — `review_category` consistency with `category_ratings` -/

/-- **C3 (amended).** For `Hostaway`/`Demo`-normalized reviews the invariant
holds: the displayed `category_ratings` names are exactly the lower-cased raw
category names (in order), a key is present in `review_category` iff it is one
of those names, and every value found in `review_category` is the rating of an
entry with that name.  Places-provider records, however, carry **no**
`review_category` field at all (their `category_ratings` is always the empty
list), before and after the `google` normalization pass. -/
theorem C3_review_category_consistency (review : PyVal) (m : ApprovalMap) (src : String)
    (hsrc : src = "Hostaway" ∨ src = "Demo") :
    (asList (pyIndex (normalize_review review src m) "category_ratings")).map
        (fun c => pyIndex c "category")
      = (catPairs review).map (fun p => PyVal.str p.1)
    ∧ (catPairs review).map Prod.fst
      = (reviewCategories review).map
          (fun c => (asStr (dictGet (asDict c) "category" (PyVal.str ""))).toLower)
    ∧ (∀ n, dictHasKey
          (asDict (pyIndex (normalize_review review src m) "review_category")) n = true
        ↔ n ∈ (catPairs review).map Prod.fst)
    ∧ (∀ n v, dictFind
          (asDict (pyIndex (normalize_review review src m) "review_category")) n = some v
        → (n, v) ∈ catPairs review)
    ∧ (∀ pid pd f i gv am,
        dictHasKey (asDict (googleNormalizeOne pid pd f i gv)) "review_category" = false
        ∧ pyIndex (googleNormalizeOne pid pd f i gv) "category_ratings" = PyVal.list []
        ∧ dictHasKey (asDict (normalize_review (googleNormalizeOne pid pd f i gv)
            "google" am)) "review_category" = false) := by
  have hcr : pyIndex (normalize_review review src m) "category_ratings"
      = PyVal.list (categoryRatingsDisplay review) := by
    rcases hsrc with rfl | rfl <;> rfl
  have hrc : pyIndex (normalize_review review src m) "review_category"
      = PyVal.dict (reviewCategoryDict review) := by
    rcases hsrc with rfl | rfl <;> rfl
  refine ⟨?_, ?_, ?_, ?_, ?_⟩
  · rw [hcr]
    show (categoryRatingsDisplay review).map (fun c => pyIndex c "category") = _
    simp only [categoryRatingsDisplay, List.map_map]
    rfl
  · simp only [catPairs, List.map_map]
    rfl
  · intro n
    rw [hrc]
    show dictHasKey (reviewCategoryDict review) n = true ↔ _
    rw [reviewCategoryDict, foldSet_hasKey]
    have hnil : dictHasKey [] n = false := rfl
    rw [hnil, Bool.false_or]
    simp only [List.any_eq_true, beq_iff_eq, List.mem_map]
  · intro n v h
    rw [hrc] at h
    replace h : dictFind (reviewCategoryDict review) n = some v := h
    rw [reviewCategoryDict] at h
    rcases foldSet_find_mem _ _ _ _ h with h' | h'
    · exact h'
    · simp [dictFind] at h'
  · intro pid pd f i gv am
    exact ⟨rfl, rfl, rfl⟩

/-- A raw record with one category, used to instantiate C3's hypotheses. -/
def c3raw : PyVal := PyVal.dict [
  ("reviewCategory", PyVal.list [
    PyVal.dict [("category", PyVal.str "X"), ("rating", PyVal.int 7)]])]

theorem C3_review_category_consistency_witness :
    dictHasKey
        (asDict (pyIndex (normalize_review c3raw "Hostaway" []) "review_category")) "x" = true
      ∧ ("x", PyVal.int 7) ∈ catPairs c3raw := by
  obtain ⟨h1, h2, h3, h4, h5⟩ :=
    C3_review_category_consistency c3raw [] "Hostaway" (Or.inl rfl)
  have hc : (catPairs c3raw).map Prod.fst = ["x"] := by with_unfolding_all rfl
  refine ⟨(h3 "x").mpr (by rw [hc]; simp),
    h4 "x" (PyVal.int 7) (by with_unfolding_all rfl)⟩

/-- Aggregation environment whose only review is a places-provider one:
no credentials for the primary platform, no demo file, one Google review. -/
def noHostaway : HostawayEnv := {
  account_id := Option.none
  api_key := Option.none
  token := HttpOutcome.raises
  reviews := HttpOutcome.raises }

/-- A places-provider environment returning a single review. -/
def oneGoogleEnv : GoogleEnv := {
  place_id := "p1"
  api_key := Option.none
  env_api_key := some "k"
  details := HttpOutcome.response 200 (PyVal.dict [
    ("status", PyVal.str "OK"),
    ("result", PyVal.dict [
      ("name", PyVal.str "P"),
      ("reviews", PyVal.list [PyVal.dict [("author_name", PyVal.str "A")]])])])
  fmtTime := fun _ => "1970-01-01 00:00:00" }

def c3env : AggEnv := {
  hostaway := noHostaway
  mock_data := Option.none
  google_import_ok := true
  google := oneGoogleEnv
  approval := [] }

/-- **C3 (counterexample).** An aggregated result set can contain a review
(the Google-sourced one) that has no `review_category` mapping at all — the
claimed invariant, which presupposes a `review_category` mapping on every
review, fails on it. -/
theorem C3_review_category_counterexample :
    (get_all_reviews c3env).map (fun r => dictHasKey (asDict r) "review_category")
        = [false]
      ∧ (get_all_reviews c3env).map (fun r => pyIndex r "category_ratings")
        = [PyVal.list []]
      ∧ (get_all_reviews c3env).map (fun r => pyIndex r "channel")
        = [PyVal.str "Google"] := by
  refine ⟨?_, ?_, ?_⟩ <;> with_unfolding_all rfl

/-! ### C1 — approval of Google-sourced reviews in the aggregation path -/

/-- Aggregation environment with one Google review and a session approval map
that approves `google_1`. -/
def c1env : AggEnv := {
  hostaway := noHostaway
  mock_data := Option.none
  google_import_ok := true
  google := oneGoogleEnv
  approval := [("google_1", PyVal.bool true)] }

/-- **C1 (counterexample).** In the main aggregation path the Google-sourced
review does **not** keep the `approved = False` stamped by its adapter: with
`session['approved_reviews'] = {'google_1': True}`, the aggregated result's
single Google review has `approved = True` — the approval map *is* consulted,
refuting the claim that the field stays `False` regardless of the map. -/
theorem C1_google_approval_counterexample :
    (fetch_google_reviews c1env.google).map (fun r => pyIndex r "approved")
        = [PyVal.bool false]
      ∧ (get_all_reviews c1env).map (fun r => pyIndex r "id")
        = [PyVal.str "google_1"]
      ∧ (get_all_reviews c1env).map (fun r => pyIndex r "approved")
        = [PyVal.bool true] := by
  refine ⟨?_, ?_, ?_⟩ <;> with_unfolding_all rfl

/-- **C1 (amended).** In the main aggregation path every places-provider
review **is** re-merged against the session approval map: the `approved=False`
stamped by the adapter is overwritten by
`approval.get(str(review['id']), False)` when `normalize_review(·, 'google')`
folds it into the aggregate list. -/
theorem C1_google_approval_merged (env : AggEnv) (r : PyVal)
    (hok : env.google_import_ok = true) (hr : r ∈ fetch_google_reviews env.google) :
    normalize_review r "google" env.approval ∈ get_all_reviews env
      ∧ pyIndex (normalize_review r "google" env.approval) "approved"
        = dictGet env.approval (pyStr (dictGet (asDict r) "id" PyVal.none))
            (PyVal.bool false) := by
  constructor
  · have hne : (fetch_google_reviews env.google).isEmpty = false := by
      cases h : fetch_google_reviews env.google with
      | nil => rw [h] at hr; simp at hr
      | cons a l => simp [List.isEmpty]
    have : google_part env
        = (fetch_google_reviews env.google).map
            (fun r => normalize_review r "google" env.approval) := by
      rw [google_part]
      simp [hok, hne]
    rw [get_all_reviews, this]
    exact List.mem_append_right _ (List.mem_map_of_mem _ hr)
  · exact normalize_google_approved r env.approval

theorem C1_google_approval_merged_witness :
    normalize_review (googleNormalizeOne "p1"
        [("name", PyVal.str "P"),
         ("reviews", PyVal.list [PyVal.dict [("author_name", PyVal.str "A")]])]
        c1env.google.fmtTime 0 (PyVal.dict [("author_name", PyVal.str "A")]))
        "google" c1env.approval ∈ get_all_reviews c1env
      ∧ pyIndex (normalize_review (googleNormalizeOne "p1"
          [("name", PyVal.str "P"),
           ("reviews", PyVal.list [PyVal.dict [("author_name", PyVal.str "A")]])]
          c1env.google.fmtTime 0 (PyVal.dict [("author_name", PyVal.str "A")]))
          "google" c1env.approval) "approved" = PyVal.bool true := by
  have h := C1_google_approval_merged c1env
    (googleNormalizeOne "p1"
      [("name", PyVal.str "P"),
       ("reviews", PyVal.list [PyVal.dict [("author_name", PyVal.str "A")]])]
      c1env.google.fmtTime 0 (PyVal.dict [("author_name", PyVal.str "A")]))
    rfl
    (by
      have : fetch_google_reviews c1env.google
          = [googleNormalizeOne "p1"
              [("name", PyVal.str "P"),
               ("reviews", PyVal.list [PyVal.dict [("author_name", PyVal.str "A")]])]
              c1env.google.fmtTime 0 (PyVal.dict [("author_name", PyVal.str "A")])] := by
        with_unfolding_all rfl
      rw [this]
      simp)
  refine ⟨h.1, ?_⟩
  rw [h.2]
  with_unfolding_all rfl

/-! ### C6 — aggregation order and demo fallback -/

/-- **C6.** The aggregator returns primary/demo reviews first and
places-provider reviews appended after.  When the primary fetch is non-empty
its normalized reviews form the first portion (and the demo dataset is not
consulted); when it is empty the normalized demo dataset is used; when both
are empty the primary/demo portion is empty and the statistics over it are all
zero. -/
theorem C6_aggregation_order (e₁ e₂ e₃ : AggEnv) :
    get_all_reviews e₁ = primary_demo_part e₁ ++ google_part e₁
      ∧ (fetch_hostaway_reviews e₂.hostaway ≠ [] →
          primary_demo_part e₂
              = (fetch_hostaway_reviews e₂.hostaway).map
                  (fun r => normalize_review r "Hostaway" e₂.approval)
            ∧ ∀ md, primary_demo_part { e₂ with mock_data := md }
                = primary_demo_part e₂)
      ∧ (fetch_hostaway_reviews e₃.hostaway = [] →
          primary_demo_part e₃
              = (load_mock_reviews e₃.mock_data).map
                  (fun r => normalize_review r "Demo" e₃.approval)
            ∧ (load_mock_reviews e₃.mock_data = [] →
                primary_demo_part e₃ = []
                  ∧ get_all_reviews e₃ = google_part e₃
                  ∧ total_reviews (primary_demo_part e₃) = 0
                  ∧ average_rating (primary_demo_part e₃) = 0
                  ∧ total_properties (primary_demo_part e₃) = 0)) := by
  refine ⟨rfl, ?_, ?_⟩
  · intro hne
    have hne' : (fetch_hostaway_reviews e₂.hostaway).isEmpty = false := by
      simpa [List.isEmpty_iff] using hne
    constructor
    · rw [primary_demo_part]
      simp [hne']
    · intro md
      show primary_demo_part { e₂ with mock_data := md } = primary_demo_part e₂
      rw [primary_demo_part, primary_demo_part]
      simp [hne']
  · intro hemp
    have hemp' : (fetch_hostaway_reviews e₃.hostaway).isEmpty = true := by
      simpa [List.isEmpty_iff] using hemp
    have hpart : primary_demo_part e₃
        = (load_mock_reviews e₃.mock_data).map
            (fun r => normalize_review r "Demo" e₃.approval) := by
      rw [primary_demo_part]
      simp only [hemp', Bool.not_true, Bool.false_eq_true, if_false]
      by_cases hm : (load_mock_reviews e₃.mock_data).isEmpty
      · rw [List.isEmpty_iff] at hm
        simp [hm]
      · simp [hm]
    refine ⟨hpart, ?_⟩
    intro hmock
    have hz : primary_demo_part e₃ = [] := by rw [hpart, hmock]; rfl
    refine ⟨hz, ?_, ?_, ?_, ?_⟩
    · rw [get_all_reviews, hz]; rfl
    · rw [hz]; rfl
    · rw [hz]; rfl
    · rw [hz]; rfl

/-- Environment with a working primary platform returning one raw review. -/
def oneHostawayEnv : HostawayEnv := {
  account_id := some "acc"
  api_key := some "key"
  token := HttpOutcome.response 200 (PyVal.dict [("access_token", PyVal.str "tok")])
  reviews := HttpOutcome.response 200 (PyVal.dict [
    ("status", PyVal.str "success"),
    ("result", PyVal.list [PyVal.dict [("id", PyVal.int 11)]]),
    ("count", PyVal.int 1)]) }

def c6env2 : AggEnv := {
  hostaway := oneHostawayEnv
  mock_data := some [PyVal.dict [("id", PyVal.int 99)]]
  google_import_ok := false
  google := oneGoogleEnv
  approval := [] }

def c6env3 : AggEnv := {
  hostaway := noHostaway
  mock_data := Option.none
  google_import_ok := true
  google := oneGoogleEnv
  approval := [] }

theorem C6_aggregation_order_witness :
    primary_demo_part c6env2
        = (fetch_hostaway_reviews c6env2.hostaway).map
            (fun r => normalize_review r "Hostaway" c6env2.approval)
      ∧ primary_demo_part { c6env2 with mock_data := Option.none }
          = primary_demo_part c6env2
      ∧ primary_demo_part c6env3 = []
      ∧ get_all_reviews c6env3 = google_part c6env3
      ∧ total_reviews (primary_demo_part c6env3) = 0
      ∧ average_rating (primary_demo_part c6env3) = 0
      ∧ total_properties (primary_demo_part c6env3) = 0 := by
  obtain ⟨_, h2, h3⟩ := C6_aggregation_order c6env3 c6env2 c6env3
  have hne : fetch_hostaway_reviews c6env2.hostaway ≠ [] := by
    rw [show fetch_hostaway_reviews c6env2.hostaway
        = [PyVal.dict [("id", PyVal.int 11)]] from by with_unfolding_all rfl]
    simp
  have hemp : fetch_hostaway_reviews c6env3.hostaway = [] := by
    with_unfolding_all rfl
  have hmock : load_mock_reviews c6env3.mock_data = [] := by
    with_unfolding_all rfl
  obtain ⟨h21, h22⟩ := h2 hne
  obtain ⟨h31, h32⟩ := h3 hemp
  obtain ⟨hz, hg, hs1, hs2, hs3⟩ := h32 hmock
  exact ⟨h21, h22 Option.none, hz, hg, hs1, hs2, hs3⟩

/-! ### C5 — summary statistics over the approved subset -/

/-- **C5.** The statistics of the public display route are computed over the
approved subset only: the count is the size of the approved subset, the
average is the 1-decimal-rounded mean of `overall_rating` over that subset
(`0` when it is empty), and the distinct-property count is the number of
`pyEq`-distinct `listing_id` values among approved reviews (`0` when empty);
on the empty list all three are `0`.  The deduplicated list really counts
distinct values: it is pairwise non-equal and contains a representative of
every approved `listing_id`. -/
theorem C5_statistics (reviews ys : List PyVal) :
    total_reviews reviews = (approved_reviews reviews).length
      ∧ approved_reviews reviews
        = reviews.filter (fun r => truthy (pyIndex r "approved"))
      ∧ (approved_reviews ys = [] → average_rating ys = 0 ∧ total_properties ys = 0)
      ∧ (approved_reviews reviews ≠ [] →
          average_rating reviews
              = round1 (((approved_reviews reviews).map
                    (fun r => asRat (pyIndex r "overall_rating"))).sum
                  / ((approved_reviews reviews).length : Rat))
            ∧ total_properties reviews
              = (dedupPy ((approved_reviews reviews).map
                  (fun r => pyIndex r "listing_id"))).length)
      ∧ (dedupPy ((approved_reviews reviews).map
            (fun r => pyIndex r "listing_id"))).Pairwise (fun a b => pyEq a b = false)
      ∧ (∀ v, v ∈ (approved_reviews reviews).map (fun r => pyIndex r "listing_id") →
          pyEq v v = true →
          ∃ w ∈ dedupPy ((approved_reviews reviews).map (fun r => pyIndex r "listing_id")),
            pyEq w v = true)
      ∧ total_reviews [] = 0
      ∧ average_rating ([] : List PyVal) = 0
      ∧ total_properties ([] : List PyVal) = 0 := by
  refine ⟨rfl, rfl, ?_, ?_, dedupPy_pairwise _, fun v hv hrefl => dedupPy_rep _ v hv hrefl,
    rfl, rfl, rfl⟩
  · intro h
    exact ⟨by simp [average_rating, h], by simp [total_properties, h]⟩
  · intro h
    have h' : (approved_reviews reviews).isEmpty = false := by
      simpa [List.isEmpty_iff] using h
    exact ⟨by simp [average_rating, h'], by simp [total_properties, h']⟩

/-- One approved review, as rendered by the statistics code. -/
def c5list : List PyVal :=
  [PyVal.dict [("approved", PyVal.bool true), ("listing_id", PyVal.int 1),
               ("overall_rating", PyVal.int 4)],
   PyVal.dict [("approved", PyVal.bool false), ("listing_id", PyVal.int 2),
               ("overall_rating", PyVal.int 1)]]

theorem C5_statistics_witness :
    total_reviews c5list = 1
      ∧ average_rating c5list = 4
      ∧ total_properties c5list = 1
      ∧ average_rating ([] : List PyVal) = 0
      ∧ total_properties ([] : List PyVal) = 0
      ∧ ∃ w ∈ dedupPy ((approved_reviews c5list).map (fun r => pyIndex r "listing_id")),
          pyEq w (PyVal.int 1) = true := by
  obtain ⟨h1, _, h3, h4, _, h6, _, _, _⟩ := C5_statistics c5list []
  have hne : approved_reviews c5list ≠ [] := by
    rw [show approved_reviews c5list
        = [PyVal.dict [("approved", PyVal.bool true), ("listing_id", PyVal.int 1),
            ("overall_rating", PyVal.int 4)]] from by with_unfolding_all rfl]
    simp
  obtain ⟨h41, h42⟩ := h4 hne
  obtain ⟨h31, h32⟩ := h3 rfl
  refine ⟨?_, ?_, ?_, h31, h32, ?_⟩
  · rw [h1]; with_unfolding_all rfl
  · rw [h41]; with_unfolding_all rfl
  · rw [h42]; with_unfolding_all rfl
  · refine h6 (PyVal.int 1) ?_ (by with_unfolding_all rfl)
    rw [show (approved_reviews c5list).map (fun r => pyIndex r "listing_id")
        = [PyVal.int 1] from by with_unfolding_all rfl]
    simp

/-! ### C7 — fail-open error handling -/

/-- The failure modes of the Hostaway adapter named by the spec: missing
credentials, token-request exception, token non-200, missing/falsy access
token, reviews-request exception, reviews non-200, API non-`success` status. -/
def hostawayFailure (e : HostawayEnv) : Prop :=
  optTruthy e.api_key = false ∨ optTruthy e.account_id = false
    ∨ e.token = HttpOutcome.raises
    ∨ (∃ st b, e.token = HttpOutcome.response st b ∧ st ≠ 200)
    ∨ (∃ st b, e.token = HttpOutcome.response st b
        ∧ truthy (dictGet (asDict b) "access_token" PyVal.none) = false)
    ∨ e.reviews = HttpOutcome.raises
    ∨ (∃ st b, e.reviews = HttpOutcome.response st b ∧ st ≠ 200)
    ∨ (∃ st b, e.reviews = HttpOutcome.response st b
        ∧ pyEq (dictGet (asDict b) "status" PyVal.none) (PyVal.str "success") = false)

/-- The failure modes of the places-provider adapter named by the spec:
missing API key, request exception/timeout, a 4xx/5xx HTTP-error status
(the only statuses `raise_for_status` raises for), provider-reported
non-`OK` status. -/
def googleFailure (e : GoogleEnv) : Prop :=
  optTruthy (pyOrStr e.api_key e.env_api_key) = false
    ∨ e.details = HttpOutcome.raises
    ∨ (∃ st b, e.details = HttpOutcome.response st b ∧ 400 ≤ st ∧ st < 600)
    ∨ (∃ st b, e.details = HttpOutcome.response st b
        ∧ pyEq (dictGet (asDict b) "status" PyVal.none) (PyVal.str "OK") = false)

theorem get_token_truthy (he : HostawayEnv) (t : PyVal)
    (h : get_hostaway_access_token he = some t) : truthy t = true := by
  rw [get_hostaway_access_token] at h
  by_cases hc : (!(optTruthy he.api_key) || !(optTruthy he.account_id)) = true
  · simp [hc] at h
  · rw [if_neg hc] at h
    cases htok : he.token with
    | raises => rw [htok] at h; simp at h
    | response st b =>
      rw [htok] at h
      dsimp only at h
      by_cases hst : st = 200
      · rw [if_pos hst] at h
        by_cases ht : truthy (dictGet (asDict b) "access_token" PyVal.none) = true
        · rw [if_pos ht] at h
          obtain rfl : dictGet (asDict b) "access_token" PyVal.none = t := by
            simpa using h
          exact ht
        · rw [if_neg ht] at h; simp at h
      · rw [if_neg hst] at h; simp at h

/-- **C7.** No adapter error ever propagates: under every failure mode the
affected adapter contributes the empty list, and when the places-provider
fetch fails (or its import fails) the aggregate is exactly the primary/demo
portion — no exception surfaces. -/
theorem C7_fail_open (he : HostawayEnv) (ge : GoogleEnv) (env : AggEnv) :
    (hostawayFailure he → fetch_hostaway_reviews he = [])
      ∧ (googleFailure ge → fetch_google_reviews ge = [])
      ∧ (googleFailure env.google ∨ env.google_import_ok = false →
          get_all_reviews env = primary_demo_part env) := by
  have hostPart : ∀ (e : HostawayEnv), hostawayFailure e → fetch_hostaway_reviews e = [] := by
    intro e h
    by_cases hc : (!(optTruthy e.api_key) || !(optTruthy e.account_id)) = true
    · rw [fetch_hostaway_reviews, if_pos hc]
    · rw [fetch_hostaway_reviews, if_neg hc]
      have hcred : optTruthy e.api_key = true ∧ optTruthy e.account_id = true := by
        simpa using hc
      rcases h with h | h | h | ⟨st, b, he', hst⟩ | ⟨st, b, he', htok⟩ | h
        | ⟨st, b, hr', hst⟩ | ⟨st, b, hr', hstat⟩
      · rw [h] at hcred; simp at hcred
      · rw [h] at hcred; simp at hcred
      · have tok : get_hostaway_access_token e = Option.none := by
          rw [get_hostaway_access_token, if_neg hc, h]
        rw [tok]
      · have tok : get_hostaway_access_token e = Option.none := by
          rw [get_hostaway_access_token, if_neg hc, he']
          dsimp only
          rw [if_neg hst]
        rw [tok]
      · have tok : get_hostaway_access_token e = Option.none := by
          rw [get_hostaway_access_token, if_neg hc, he']
          dsimp only
          by_cases hst : st = 200
          · rw [if_pos hst, htok]; simp
          · rw [if_neg hst]
        rw [tok]
      · cases tok : get_hostaway_access_token e with
        | none => rfl
        | some t =>
          have ht := get_token_truthy e t tok
          dsimp only
          rw [ht]
          simp only [Bool.not_true, Bool.false_eq_true, if_false, h]
      · cases tok : get_hostaway_access_token e with
        | none => rfl
        | some t =>
          have ht := get_token_truthy e t tok
          dsimp only
          rw [ht]
          simp only [Bool.not_true, Bool.false_eq_true, if_false, hr']
          rw [if_neg hst]
      · cases tok : get_hostaway_access_token e with
        | none => rfl
        | some t =>
          have ht := get_token_truthy e t tok
          dsimp only
          rw [ht]
          simp only [Bool.not_true, Bool.false_eq_true, if_false, hr']
          by_cases hst : st = 200
          · rw [if_pos hst, hstat]; simp
          · rw [if_neg hst]
  have googPart : ∀ (e : GoogleEnv), googleFailure e → fetch_google_reviews e = [] := by
    intro e h
    by_cases hk : optTruthy (pyOrStr e.api_key e.env_api_key) = true
    · rw [fetch_google_reviews, hk]
      simp only [Bool.not_true, Bool.false_eq_true, if_false]
      rcases h with h | h | ⟨st, b, hd, hst⟩ | ⟨st, b, hd, hstat⟩
      · rw [h] at hk; simp at hk
      · rw [h]
      · rw [hd]
        dsimp only
        rw [if_pos hst]
      · rw [hd]
        dsimp only
        by_cases hr : 400 ≤ st ∧ st < 600
        · rw [if_pos hr]
        · rw [if_neg hr, hstat]; simp
    · rw [fetch_google_reviews]
      have : optTruthy (pyOrStr e.api_key e.env_api_key) = false := by
        simpa using hk
      rw [this]
      rfl
  refine ⟨hostPart he, googPart ge, ?_⟩
  intro h
  have hg : google_part env = [] := by
    rcases h with h | h
    · have hfetch := googPart env.google h
      rw [google_part]
      by_cases hok : env.google_import_ok = true
      · simp [hok, hfetch]
      · simp [hok]
    · rw [google_part, h]
      simp
  rw [get_all_reviews, hg, List.append_nil]

/-- Google environment that raises a network error. -/
def c7ge : GoogleEnv := {
  place_id := "p"
  api_key := some "k"
  env_api_key := Option.none
  details := HttpOutcome.raises
  fmtTime := fun _ => "t" }

/-- Aggregation environment: one working primary review, Google raising. -/
def c7env : AggEnv := {
  hostaway := oneHostawayEnv
  mock_data := Option.none
  google_import_ok := true
  google := c7ge
  approval := [] }

theorem C7_fail_open_witness :
    fetch_hostaway_reviews noHostaway = []
      ∧ fetch_google_reviews c7ge = []
      ∧ get_all_reviews c7env = primary_demo_part c7env
      ∧ (get_all_reviews c7env).map (fun r => pyIndex r "id") = [PyVal.str "11"] := by
  obtain ⟨h1, h2, h3⟩ := C7_fail_open noHostaway c7ge c7env
  refine ⟨h1 (Or.inl (by with_unfolding_all rfl)), h2 (Or.inr (Or.inl rfl)),
    h3 (Or.inl (Or.inr (Or.inl rfl))), by with_unfolding_all rfl⟩

/-! ### C8 — id uniqueness

The places-provider adapter synthesizes ids `"google_" ++ decimal(i+1)`; to
reason about their distinctness we first prove that `Nat.repr` (the decimal
rendering used by the model, matching Python's f-string) is injective. -/

theorem toDigitsCore_eq_digits (f : Nat) : ∀ (n : Nat) (acc : List Char), 0 < n → n < f →
    Nat.toDigitsCore 10 f n acc
      = ((Nat.digits 10 n).reverse.map Nat.digitChar) ++ acc := by
  induction f with
  | zero => intro n acc hn hf; omega
  | succ f ih =>
    intro n acc hn hf
    rw [Nat.toDigitsCore]
    by_cases h10 : n / 10 = 0
    · have hlt : n < 10 := by omega
      have hds : Nat.digits 10 n = [n] := by
        rw [Nat.digits_def' (by norm_num : 1 < 10) hn, Nat.mod_eq_of_lt hlt, h10,
          Nat.digits_zero]
      rw [if_pos h10, hds]
      simp [Nat.mod_eq_of_lt hlt]
    · have hn10 : 0 < n / 10 := Nat.pos_of_ne_zero h10
      have hf10 : n / 10 < f := by
        have : n / 10 < n := Nat.div_lt_self hn (by norm_num)
        omega
      rw [if_neg h10, ih (n / 10) _ hn10 hf10,
        Nat.digits_def' (by norm_num : 1 < 10) hn]
      simp

theorem repr_eq_digits (n : Nat) (h : 0 < n) :
    Nat.repr n = ((Nat.digits 10 n).reverse.map Nat.digitChar).asString := by
  rw [Nat.repr, Nat.toDigits,
    toDigitsCore_eq_digits (n + 1) n [] h (Nat.lt_succ_self n), List.append_nil]

theorem digitChar_inj {a b : Nat} (ha : a < 10) (hb : b < 10)
    (h : Nat.digitChar a = Nat.digitChar b) : a = b := by
  have key : ∀ (x y : Fin 10), Nat.digitChar x.val = Nat.digitChar y.val → x = y := by
    decide
  have := key ⟨a, ha⟩ ⟨b, hb⟩ h
  simpa using congrArg Fin.val this

theorem map_digitChar_inj : ∀ (l1 l2 : List Nat), (∀ x ∈ l1, x < 10) → (∀ x ∈ l2, x < 10) →
    l1.map Nat.digitChar = l2.map Nat.digitChar → l1 = l2 := by
  intro l1
  induction l1 with
  | nil =>
    intro l2 _ _ h
    cases l2 with
    | nil => rfl
    | cons b t2 => simp at h
  | cons a t ih =>
    intro l2 h1 h2 h
    cases l2 with
    | nil => simp at h
    | cons b t2 =>
      simp only [List.map_cons, List.cons.injEq] at h
      have hab := digitChar_inj (h1 a (by simp)) (h2 b (by simp)) h.1
      rw [hab, ih t2 (fun x hx => h1 x (by simp [hx])) (fun x hx => h2 x (by simp [hx])) h.2]

theorem asString_inj {l1 l2 : List Char} (h : l1.asString = l2.asString) : l1 = l2 := by
  simpa [List.asString] using congrArg String.data h

theorem natRepr_inj : ∀ m n : Nat, Nat.repr m = Nat.repr n → m = n := by
  have key : ∀ n : Nat, 0 < n → Nat.repr n ≠ Nat.repr 0 := by
    intro n hn h
    have h0 : Nat.repr 0 = ['0'].asString := rfl
    rw [repr_eq_digits n hn, h0] at h
    have h2 := asString_inj h
    cases hd : (Nat.digits 10 n).reverse with
    | nil => rw [hd] at h2; simp at h2
    | cons c cs =>
      rw [hd] at h2
      simp only [List.map_cons, List.cons.injEq] at h2
      have hcs : cs = [] := by
        have := h2.2
        cases cs with
        | nil => rfl
        | cons d ds => simp at this
      have hds : Nat.digits 10 n = [c] := by
        have := congrArg List.reverse hd
        simpa [hcs] using this
      have hc10 : c < 10 :=
        Nat.digits_lt_base (by norm_num) (by rw [hds]; simp)
      have hc0 : c = 0 := digitChar_inj hc10 (by norm_num) h2.1
      have : n = 0 := by
        have hof := Nat.ofDigits_digits 10 n
        rw [hds, hc0] at hof
        simpa [Nat.ofDigits] using hof.symm
      omega
  intro m n h
  rcases Nat.eq_zero_or_pos m with rfl | hm
  · rcases Nat.eq_zero_or_pos n with rfl | hn
    · rfl
    · exact absurd h.symm (key n hn)
  · rcases Nat.eq_zero_or_pos n with rfl | hn
    · exact absurd h (key m hm)
    · rw [repr_eq_digits m hm, repr_eq_digits n hn] at h
      have h2 := asString_inj h
      have h3 : (Nat.digits 10 m).reverse = (Nat.digits 10 n).reverse :=
        map_digitChar_inj _ _
          (fun x hx => Nat.digits_lt_base (by norm_num) (List.mem_reverse.mp hx))
          (fun x hx => Nat.digits_lt_base (by norm_num) (List.mem_reverse.mp hx)) h2
      have h4 : Nat.digits 10 m = Nat.digits 10 n := by
        simpa using congrArg List.reverse h3
      calc m = Nat.ofDigits 10 (Nat.digits 10 m) := (Nat.ofDigits_digits 10 m).symm
        _ = Nat.ofDigits 10 (Nat.digits 10 n) := by rw [h4]
        _ = n := Nat.ofDigits_digits 10 n

theorem string_append_left_cancel {p a b : String} (h : p ++ a = p ++ b) : a = b := by
  have hd := congrArg String.data h
  simp only [String.data_append] at hd
  have h2 := List.append_cancel_left hd
  cases a; cases b
  exact congrArg String.mk h2

theorem googleId_inj : Function.Injective (fun i : Nat => "google_" ++ Nat.repr (i + 1)) := by
  intro i j h
  have := natRepr_inj _ _ (string_append_left_cancel h)
  omega

/-- The places-provider fetch either fails to `[]` or maps
`googleNormalizeOne` over the enumerated provider reviews. -/
theorem fetch_google_reviews_shape (ge : GoogleEnv) :
    fetch_google_reviews ge = []
      ∨ ∃ (pd : List (String × PyVal)) (l : List PyVal), fetch_google_reviews ge
          = l.enum.map (fun p => googleNormalizeOne ge.place_id pd ge.fmtTime p.1 p.2) := by
  rw [fetch_google_reviews]
  by_cases hk : optTruthy (pyOrStr ge.api_key ge.env_api_key) = true
  · rw [hk]
    simp only [Bool.not_true, Bool.false_eq_true, if_false]
    cases hd : ge.details with
    | raises => exact Or.inl rfl
    | response st b =>
      dsimp only
      by_cases hr : 400 ≤ st ∧ st < 600
      · rw [if_pos hr]; exact Or.inl rfl
      · rw [if_neg hr]
        by_cases hs : pyEq (dictGet (asDict b) "status" PyVal.none) (PyVal.str "OK") = true
        · rw [hs]
          simp only [Bool.not_true, Bool.false_eq_true, if_false]
          exact Or.inr ⟨_, _, rfl⟩
        · have hs' : pyEq (dictGet (asDict b) "status" PyVal.none) (PyVal.str "OK") = false := by
            simpa using hs
          rw [hs']
          exact Or.inl rfl
  · have hk' : optTruthy (pyOrStr ge.api_key ge.env_api_key) = false := by simpa using hk
    rw [hk']
    exact Or.inl rfl

theorem enum_map_ids (pid : String) (pd : List (String × PyVal)) (f : Rat → String)
    (l : List PyVal) :
    (l.enum.map (fun p => googleNormalizeOne pid pd f p.1 p.2)).map
        (fun r => pyStr (pyIndex r "id"))
      = (List.range l.length).map (fun i => "google_" ++ Nat.repr (i + 1)) := by
  rw [List.map_map]
  have hfun : ((fun r => pyStr (pyIndex r "id"))
        ∘ (fun p : Nat × PyVal => googleNormalizeOne pid pd f p.1 p.2))
      = (fun i => "google_" ++ Nat.repr (i + 1)) ∘ Prod.fst := by
    funext p; rfl
  rw [hfun, ← List.map_map, List.enum_map_fst]

theorem enum_map_ids_normalized (pid : String) (pd : List (String × PyVal)) (f : Rat → String)
    (l : List PyVal) (m : ApprovalMap) :
    (l.enum.map (fun p => googleNormalizeOne pid pd f p.1 p.2)).map
        (fun r => pyStr (pyIndex (normalize_review r "google" m) "id"))
      = (List.range l.length).map (fun i => "google_" ++ Nat.repr (i + 1)) := by
  rw [List.map_map]
  have hfun : ((fun r => pyStr (pyIndex (normalize_review r "google" m) "id"))
        ∘ (fun p : Nat × PyVal => googleNormalizeOne pid pd f p.1 p.2))
      = (fun i => "google_" ++ Nat.repr (i + 1)) ∘ Prod.fst := by
    funext p; rfl
  rw [hfun, ← List.map_map, List.enum_map_fst]

theorem google_part_ids_nodup (env : AggEnv) :
    ((google_part env).map (fun r => pyStr (pyIndex r "id"))).Nodup := by
  rw [google_part]
  by_cases hok : env.google_import_ok = true
  · simp only [hok, if_true]
    rcases fetch_google_reviews_shape env.google with h | ⟨pd, l, h⟩
    · simp [h]
    · by_cases hne : (fetch_google_reviews env.google).isEmpty
      · simp [hne]
      · have hne' : (fetch_google_reviews env.google).isEmpty = false := by simpa using hne
        simp only [hne', Bool.not_false, if_true]
        rw [h, List.map_map,
          show ((fun r => pyStr (pyIndex r "id"))
              ∘ (fun r => normalize_review r "google" env.approval))
            = (fun r => pyStr (pyIndex (normalize_review r "google" env.approval) "id"))
            from rfl,
          enum_map_ids_normalized]
        exact (List.nodup_range _).map googleId_inj
  · simp only [hok]
    simp

/-- **C8 (amended).** Places-provider ids are namespaced (`google_1`,
`google_2`, …) and pairwise distinct within every single fetch and aggregate;
primary/demo ids, however, are the raw provider ids string-cast with **no**
prefixing, so ids of a whole aggregated result set are pairwise distinct only
under the assumption that the provider-supplied ids are distinct and disjoint
from the Google ones. -/
theorem C8_id_uniqueness (ge : GoogleEnv) (env : AggEnv) :
    ((fetch_google_reviews ge).map (fun r => pyStr (pyIndex r "id"))).Nodup
      ∧ ((google_part env).map (fun r => pyStr (pyIndex r "id"))).Nodup
      ∧ (((primary_demo_part env).map (fun r => pyStr (pyIndex r "id"))).Nodup →
          (∀ s, s ∈ (primary_demo_part env).map (fun r => pyStr (pyIndex r "id")) →
            s ∉ (google_part env).map (fun r => pyStr (pyIndex r "id"))) →
          ((get_all_reviews env).map (fun r => pyStr (pyIndex r "id"))).Nodup) := by
  refine ⟨?_, google_part_ids_nodup env, ?_⟩
  · rcases fetch_google_reviews_shape ge with h | ⟨pd, l, h⟩
    · simp [h]
    · rw [h, enum_map_ids]
      exact (List.nodup_range _).map googleId_inj
  · intro hp hdisj
    rw [get_all_reviews, List.map_append]
    exact List.Nodup.append hp (google_part_ids_nodup env) hdisj

/-- Primary-platform environment returning two raw reviews with the same id. -/
def dupHostawayEnv : HostawayEnv := {
  account_id := some "acc"
  api_key := some "key"
  token := HttpOutcome.response 200 (PyVal.dict [("access_token", PyVal.str "tok")])
  reviews := HttpOutcome.response 200 (PyVal.dict [
    ("status", PyVal.str "success"),
    ("result", PyVal.list [PyVal.dict [("id", PyVal.int 7)],
                           PyVal.dict [("id", PyVal.int 7)]]),
    ("count", PyVal.int 2)]) }

def c8env : AggEnv := {
  hostaway := dupHostawayEnv
  mock_data := Option.none
  google_import_ok := false
  google := oneGoogleEnv
  approval := [] }

/-- **C8 (counterexample).** The primary-platform ids are not prefixed and not
deduplicated: a provider answer containing two records with id `7` yields an
aggregated result set whose `id` fields are `["7", "7"]` — not unique. -/
theorem C8_id_uniqueness_counterexample :
    (get_all_reviews c8env).map (fun r => pyStr (pyIndex r "id")) = ["7", "7"]
      ∧ ¬ ((get_all_reviews c8env).map (fun r => pyStr (pyIndex r "id"))).Nodup := by
  have h : (get_all_reviews c8env).map (fun r => pyStr (pyIndex r "id")) = ["7", "7"] := by
    with_unfolding_all rfl
  exact ⟨h, by rw [h]; decide⟩

def c8wenv : AggEnv := {
  hostaway := oneHostawayEnv
  mock_data := Option.none
  google_import_ok := true
  google := oneGoogleEnv
  approval := [] }

theorem C8_id_uniqueness_witness :
    ((get_all_reviews c8wenv).map (fun r => pyStr (pyIndex r "id"))).Nodup
      ∧ (get_all_reviews c8wenv).map (fun r => pyStr (pyIndex r "id"))
        = ["11", "google_1"] := by
  obtain ⟨h1, h2, h3⟩ := C8_id_uniqueness oneGoogleEnv c8wenv
  have hprim : (primary_demo_part c8wenv).map (fun r => pyStr (pyIndex r "id"))
      = ["11"] := by with_unfolding_all rfl
  have hgoog : (google_part c8wenv).map (fun r => pyStr (pyIndex r "id"))
      = ["google_1"] := by with_unfolding_all rfl
  refine ⟨h3 ?_ ?_, by with_unfolding_all rfl⟩
  · rw [hprim]; decide
  · intro s hs
    rw [hprim] at hs
    rw [hgoog]
    simp at hs
    subst hs
    decide

end FlexLiving
